import Mathlib

/-
Verification of the commit-range summarization and posting pipeline
(src/index.js). Strings are modelled by Lean String, character-wise
(the source manipulates JavaScript strings character-wise as well);
machine numbers by Int / Nat / Rat; the external collaborators
(git queries, the completion endpoint, the publish endpoint) by
oracle records whose values are inputs to the embedded pipeline.
-/

/-- Characters stripped by JavaScript String.prototype.trim and matched by
the regular-expression class backslash-s: WhiteSpace and LineTerminator
code points. -/
def isJsWhitespaceChar (c : Char) : Bool :=
  c = ' ' || c = '\t' || c = '\n' || c = '\x0b' || c = '\x0c' || c = '\r' ||
  c = ' ' || c = ' ' || (0x2000 ≤ c.toNat && c.toNat ≤ 0x200A) ||
  c = ' ' || c = ' ' || c = ' ' || c = ' ' ||
  c = '　' || c = '﻿'

/-- Translation of JavaScript String.prototype.trim: drop leading and
trailing whitespace code points. -/
def jsTrim (s : String) : String :=
  String.mk (((s.data.dropWhile isJsWhitespaceChar).reverse.dropWhile
    isJsWhitespaceChar).reverse)

/-- Translation of JavaScript content.slice(0, n): the first n characters. -/
def jsSlice (s : String) (n : Nat) : String :=
  String.mk (s.data.take n)

/-- Translation of JavaScript Array.prototype.join with separator sep. -/
def joinSep (sep : String) : List String → String
  | [] => ""
  | [a] => a
  | a :: b :: rest => a ++ sep ++ joinSep sep (b :: rest)

/-- Result record of truncateContent (src/index.js line 58): the field text
holds the bounded text, truncated flags whether the bound was applied. -/
structure TruncationResult where
  text : String
  truncated : Bool
deriving DecidableEq

/-- The human-readable marker appended by truncateContent
(src/index.js line 68). -/
def truncMarker (limit : Int) : String :=
  "\n\n[Diff truncated to the first " ++ toString limit ++ " characters]"

/-- Translation of truncateContent (src/index.js lines 58-70). A limit of
none models the JavaScript argument being absent (undefined); the source
guard (not limit or limit less-or-equal 0) also fires on limit = 0, which
the l ≤ 0 branch covers. -/
def truncateContent (content : String) (limit : Option Int) : TruncationResult :=
  match limit with
  | none => { text := content, truncated := false }
  | some l =>
    if l ≤ 0 then { text := content, truncated := false }
    else if (content.length : Int) ≤ l then { text := content, truncated := false }
    else { text := jsSlice content l.toNat ++ truncMarker l, truncated := true }

theorem strData_append (a b : String) : (a ++ b).data = a.data ++ b.data := by
  cases a; cases b; rfl

theorem strLength_data (s : String) : s.length = s.data.length := rfl

theorem strLength_append (a b : String) : (a ++ b).length = a.length + b.length := by
  rw [strLength_data, strLength_data, strLength_data, strData_append,
    List.length_append]

theorem jsSlice_length (s : String) (n : Nat) :
    (jsSlice s n).length = min n s.length := by
  rw [strLength_data, jsSlice, strLength_data]
  exact List.length_take n s.data

/-- C1: for every string and integer limit, truncateContent returns the
original content with truncated = false when the limit is absent, zero or
negative, or when the content length is at most the limit; otherwise it
returns the first limit characters followed by the marker naming the limit
with truncated = true; truncated is true iff the limit is positive and the
content length strictly exceeds it, and for a positive limit the returned
text length is at most the limit plus the marker length. -/
theorem truncateContent_spec (content : String) (limit : Int) :
    truncateContent content none = { text := content, truncated := false }
    ∧ (limit ≤ 0 →
        truncateContent content (some limit) = { text := content, truncated := false })
    ∧ ((content.length : Int) ≤ limit →
        truncateContent content (some limit) = { text := content, truncated := false })
    ∧ (0 < limit → (limit : Int) < (content.length : Int) →
        truncateContent content (some limit) =
          { text := jsSlice content limit.toNat ++ truncMarker limit, truncated := true })
    ∧ ((truncateContent content (some limit)).truncated = true ↔
        (0 < limit ∧ (limit : Int) < (content.length : Int)))
    ∧ (0 < limit →
        (truncateContent content (some limit)).text.length ≤
          limit.toNat + (truncMarker limit).length) := by
  refine ⟨rfl, ?_, ?_, ?_, ?_, ?_⟩
  · intro h
    simp only [truncateContent, if_pos h]
  · intro h
    by_cases h0 : limit ≤ 0
    · simp only [truncateContent, if_pos h0]
    · simp only [truncateContent, if_neg h0, if_pos h]
  · intro h0 h1
    simp only [truncateContent]
    rw [if_neg (by omega), if_neg (by omega)]
  · constructor
    · intro h
      simp only [truncateContent] at h
      by_cases h0 : limit ≤ 0
      · rw [if_pos h0] at h; simp at h
      · by_cases h1 : (content.length : Int) ≤ limit
        · rw [if_neg h0, if_pos h1] at h; simp at h
        · exact ⟨by omega, by omega⟩
    · rintro ⟨h0, h1⟩
      simp only [truncateContent]
      rw [if_neg (by omega), if_neg (by omega)]
  · intro h0
    simp only [truncateContent]
    rw [if_neg (by omega)]
    by_cases h1 : (content.length : Int) ≤ limit
    · rw [if_pos h1]
      show content.length ≤ limit.toNat + (truncMarker limit).length
      omega
    · rw [if_neg h1]
      simp only [strLength_append, jsSlice_length]
      omega

/-- Witness for C1 at concrete inputs: an 11-character string with limit 5
is cut to 5 characters plus the marker; limit 0 leaves a string unchanged. -/
theorem truncateContent_spec_witness :
    truncateContent "hello world" (some 5) =
      { text := "hello\n\n[Diff truncated to the first 5 characters]",
        truncated := true }
    ∧ truncateContent "hi" (some 0) = { text := "hi", truncated := false } := by
  have h1 := (truncateContent_spec "hello world" 5).2.2.2.1 (by decide) (by decide)
  have h2 := (truncateContent_spec "hi" 0).2.1 (by decide)
  exact ⟨h1.trans (by decide), h2⟩

/-- Sections of the commit summary (src/index.js lines 72-88). The title
and body arrive through readCommitTitle and readCommitBody, which trim the
raw git output (lines 42-48); rawTitle and rawBody are those raw outputs.
The diff (readCommitDiff, line 50) is not trimmed at fetch time. -/
def buildCommitSummarySections (commit rawTitle rawBody diff : String)
    (maxDiffChars : Option Int) : List String :=
  let title := jsTrim rawTitle
  let body := jsTrim rawBody
  let truncatedDiff := truncateContent diff maxDiffChars
  let sections := ["Commit: " ++ commit, "Title: " ++ title]
  let sections := if body ≠ "" then sections ++ ["Body:\n" ++ body] else sections
  if jsTrim truncatedDiff.text ≠ "" then
    sections ++ ["Diff preview:\n" ++ truncatedDiff.text]
  else sections

/-- Translation of buildCommitSummary (src/index.js lines 72-89): the
sections joined with a blank-line separator. -/
def buildCommitSummary (commit rawTitle rawBody diff : String)
    (maxDiffChars : Option Int) : String :=
  joinSep "\n\n" (buildCommitSummarySections commit rawTitle rawBody diff maxDiffChars)

theorem append_ne_append_of_head_ne {x y : Char} {xs ys : List Char}
    (a b : String) (ha : a.data = x :: xs) (hb : b.data = y :: ys)
    (hxy : x ≠ y) (s t : String) : a ++ s ≠ b ++ t := by
  intro h
  have h2 := congrArg String.data h
  rw [strData_append, strData_append, ha, hb, List.cons_append,
    List.cons_append] at h2
  exact hxy (List.head_eq_of_cons_eq h2)

theorem strAppend_empty (a : String) : a ++ "" = a := by
  cases a with
  | mk d => exact congrArg String.mk (List.append_nil d)

theorem strAppend_assoc (a b c : String) : a ++ b ++ c = a ++ (b ++ c) := by
  cases a with
  | mk d1 =>
    cases b with
    | mk d2 =>
      cases c with
      | mk d3 => exact congrArg String.mk (List.append_assoc d1 d2 d3)

theorem joinSep_cons_exists (sep a : String) (l : List String) :
    ∃ r, joinSep sep (a :: l) = a ++ r := by
  cases l with
  | nil => exact ⟨"", (strAppend_empty a).symm⟩
  | cons b rest =>
    refine ⟨sep ++ joinSep sep (b :: rest), ?_⟩
    rw [joinSep, strAppend_assoc]

/-- C2: the commit summary never contains a body section when the fetched
body trims to empty, never contains a diff-preview section when the
truncated diff trims to empty, and its sections always appear in the fixed
order identifier line, title line, optional body, optional diff preview,
joined by a blank-line separator and starting with the identifier line. -/
theorem buildCommitSummary_spec (commit rawTitle rawBody diff : String)
    (limit : Option Int) :
    (jsTrim rawBody = "" → ∀ b : String,
      ("Body:\n" ++ b) ∉ buildCommitSummarySections commit rawTitle rawBody diff limit)
    ∧ (jsTrim (truncateContent diff limit).text = "" → ∀ d : String,
      ("Diff preview:\n" ++ d) ∉
        buildCommitSummarySections commit rawTitle rawBody diff limit)
    ∧ buildCommitSummarySections commit rawTitle rawBody diff limit =
        ["Commit: " ++ commit, "Title: " ++ jsTrim rawTitle]
        ++ (if jsTrim rawBody ≠ "" then ["Body:\n" ++ jsTrim rawBody] else [])
        ++ (if jsTrim (truncateContent diff limit).text ≠ "" then
              ["Diff preview:\n" ++ (truncateContent diff limit).text] else [])
    ∧ buildCommitSummary commit rawTitle rawBody diff limit =
        joinSep "\n\n" (buildCommitSummarySections commit rawTitle rawBody diff limit)
    ∧ ∃ rest, buildCommitSummary commit rawTitle rawBody diff limit =
        ("Commit: " ++ commit) ++ rest := by
  have hsections : buildCommitSummarySections commit rawTitle rawBody diff limit =
      ["Commit: " ++ commit, "Title: " ++ jsTrim rawTitle]
      ++ (if jsTrim rawBody ≠ "" then ["Body:\n" ++ jsTrim rawBody] else [])
      ++ (if jsTrim (truncateContent diff limit).text ≠ "" then
            ["Diff preview:\n" ++ (truncateContent diff limit).text] else []) := by
    simp only [buildCommitSummarySections]
    split_ifs <;> simp
  have hBodyCommit : ∀ b : String, "Body:\n" ++ b ≠ "Commit: " ++ commit :=
    fun b => append_ne_append_of_head_ne "Body:\n" "Commit: " rfl rfl
      (by decide) b commit
  have hBodyTitle : ∀ b : String, "Body:\n" ++ b ≠ "Title: " ++ jsTrim rawTitle :=
    fun b => append_ne_append_of_head_ne "Body:\n" "Title: " rfl rfl
      (by decide) b (jsTrim rawTitle)
  have hBodyDiff : ∀ b : String,
      "Body:\n" ++ b ≠ "Diff preview:\n" ++ (truncateContent diff limit).text :=
    fun b => append_ne_append_of_head_ne "Body:\n" "Diff preview:\n" rfl rfl
      (by decide) b (truncateContent diff limit).text
  have hDiffCommit : ∀ d : String, "Diff preview:\n" ++ d ≠ "Commit: " ++ commit :=
    fun d => append_ne_append_of_head_ne "Diff preview:\n" "Commit: " rfl rfl
      (by decide) d commit
  have hDiffTitle : ∀ d : String,
      "Diff preview:\n" ++ d ≠ "Title: " ++ jsTrim rawTitle :=
    fun d => append_ne_append_of_head_ne "Diff preview:\n" "Title: " rfl rfl
      (by decide) d (jsTrim rawTitle)
  have hDiffBody : ∀ d : String,
      "Diff preview:\n" ++ d ≠ "Body:\n" ++ jsTrim rawBody :=
    fun d => append_ne_append_of_head_ne "Diff preview:\n" "Body:\n" rfl rfl
      (by decide) d (jsTrim rawBody)
  refine ⟨?_, ?_, hsections, rfl, ?_⟩
  · intro hb b hmem
    rw [hsections,
      if_neg (show ¬(jsTrim rawBody ≠ "") by simp [hb])] at hmem
    simp only [List.append_nil, List.mem_append, List.mem_cons,
      List.not_mem_nil, or_false, List.mem_singleton] at hmem
    rcases hmem with (h | h) | h
    · exact hBodyCommit b h
    · exact hBodyTitle b h
    · split at h
      · simp only [List.mem_singleton] at h
        exact hBodyDiff b h
      · simp at h
  · intro hd d hmem
    rw [hsections,
      if_neg (show ¬(jsTrim (truncateContent diff limit).text ≠ "")
        by simp [hd])] at hmem
    simp only [List.append_nil, List.mem_append, List.mem_cons,
      List.not_mem_nil, or_false, List.mem_singleton] at hmem
    rcases hmem with (h | h) | h
    · exact hDiffCommit d h
    · exact hDiffTitle d h
    · split at h
      · simp only [List.mem_singleton] at h
        exact hDiffBody d h
      · simp at h
  · rw [buildCommitSummary, hsections]
    exact joinSep_cons_exists "\n\n" ("Commit: " ++ commit) _

/-- Witness for C2 at a concrete commit whose body and diff both trim to
empty: no body section and no diff-preview section occur. -/
theorem buildCommitSummary_spec_witness :
    ("Body:\nz" ∉ buildCommitSummarySections "abc" "Title" "  " " " (some 10))
    ∧ ("Diff preview:\nz" ∉
        buildCommitSummarySections "abc" "Title" "  " " " (some 10)) :=
  ⟨(buildCommitSummary_spec "abc" "Title" "  " " " (some 10)).1 (by decide) "z",
   (buildCommitSummary_spec "abc" "Title" "  " " " (some 10)).2.1 (by decide) "z"⟩

def splitOnNlStep (c : Char) (acc : List (List Char)) : List (List Char) :=
  if c = '\n' then [] :: acc
  else
    match acc with
    | [] => [[c]]
    | t :: ts => (c :: t) :: ts

/-- Translation of JavaScript output.split on the newline character:
every newline separates two fields, empty fields included. -/
def jsSplitOnNl (s : String) : List String :=
  (s.data.foldr splitOnNlStep [[]]).map String.mk

/-- Parsing of the rev-list output inside listCommitsInRange
(src/index.js lines 30-40): trim the raw output, return no commits when it
is empty, otherwise split on newlines and drop empty lines. -/
def parseRevList (raw : String) : List String :=
  let trimmed := jsTrim raw
  if trimmed = "" then []
  else (jsSplitOnNl trimmed).filter (fun s => s ≠ "")

/-- The collected commit order (src/index.js line 261): prepend the
resolved from-id exactly when include_start_commit is set. -/
def commitOrderOf (fromSha : String) (commitsInRange : List String)
    (includeStartCommit : Bool) : List String :=
  if includeStartCommit then fromSha :: commitsInRange else commitsInRange

/-- C3: under the version-control collaborator contract that the range
query excludes the from-id (git rev-list fromSha..toSha), the collected
list without includeFrom never contains the from-id, and with includeFrom
the from-id is prepended as first element, even on an empty range. -/
theorem commitOrder_spec (fromSha raw : String)
    (h : fromSha ∉ parseRevList raw) :
    fromSha ∉ commitOrderOf fromSha (parseRevList raw) false
    ∧ commitOrderOf fromSha (parseRevList raw) true = fromSha :: parseRevList raw
    ∧ (parseRevList raw = [] →
        commitOrderOf fromSha (parseRevList raw) true = [fromSha]) := by
  refine ⟨h, rfl, ?_⟩
  intro he
  rw [commitOrderOf, if_pos rfl, he]

/-- Witness for C3 at a concrete two-commit range output: the from-id is
absent without includeFrom and prepended with it. -/
theorem commitOrder_spec_witness :
    "xyz" ∉ commitOrderOf "xyz" (parseRevList "abc\ndef") false
    ∧ commitOrderOf "xyz" (parseRevList "") true = ["xyz"] := by
  have h := commitOrder_spec "xyz" "abc\ndef" (by decide)
  have h2 := commitOrder_spec "xyz" "" (by decide)
  exact ⟨h.1, h2.2.2 (by decide)⟩

/-- Argument record of buildPrompt (src/index.js lines 91-101). -/
structure PromptParams where
  customPrompt : String
  fromSha : String
  toSha : String
  commitSummaries : List String
  community : String
  tone : String
  hashtags : List String
  callToAction : String
  extraInstructions : String
deriving DecidableEq

/-- The ordered fragment list assembled by buildPrompt when no override is
given (src/index.js lines 106-131); each conditional push of the source
appends its fragment when the corresponding field is truthy. -/
def buildPromptParts (p : PromptParams) : List String :=
  let parts := [
    "You are a concise social media writer for X. Compose a single post (no thread) under 280 characters.",
    "Summarize " ++ toString p.commitSummaries.length ++ " commit(s) between " ++
      p.fromSha ++ " and " ++ p.toSha ++ " with a focus on what users will notice.",
    if p.community ≠ "" then
      "This message will share with the \"" ++ p.community ++ "\" community."
    else "This message will post to the main timeline."]
  let parts := if p.tone ≠ "" then parts ++ ["Adopt a " ++ p.tone ++ " tone."] else parts
  let parts := if p.hashtags ≠ [] then
      parts ++ ["Incorporate these hashtags: " ++ joinSep " " p.hashtags]
    else parts
  let parts := if p.callToAction ≠ "" then
      parts ++ ["Finish with: " ++ p.callToAction]
    else parts
  let parts := parts ++ ["Commit context:", joinSep "\n\n---\n\n" p.commitSummaries]
  let parts := if p.extraInstructions ≠ "" then
      parts ++ ["Additional instructions: " ++ p.extraInstructions]
    else parts
  parts ++ ["Stay actionable, friendly, and avoid overly technical jargon."]

/-- Translation of buildPrompt (src/index.js lines 91-134): a truthy
customPrompt is returned verbatim before any composition; otherwise the
fragments are joined with blank lines. -/
def buildPrompt (p : PromptParams) : String :=
  if p.customPrompt ≠ "" then p.customPrompt
  else joinSep "\n\n" (buildPromptParts p)

/-- C5: a present non-empty prompt override is returned exactly, and the
output is independent of every other field: two parameter records sharing
the same non-empty override compose to byte-identical output. -/
theorem buildPrompt_override_spec (p q : PromptParams)
    (hp : p.customPrompt ≠ "") (hq : q.customPrompt = p.customPrompt) :
    buildPrompt p = p.customPrompt ∧ buildPrompt q = buildPrompt p := by
  constructor
  · rw [buildPrompt, if_pos hp]
  · rw [buildPrompt, buildPrompt, hq, if_pos hp, if_pos hp]

/-- Witness for C5: two records with override X and entirely different
other fields both compose to exactly X. -/
theorem buildPrompt_override_spec_witness :
    buildPrompt
      { customPrompt := "X", fromSha := "a", toSha := "b",
        commitSummaries := ["s"], community := "c", tone := "witty",
        hashtags := ["#h"], callToAction := "go", extraInstructions := "e" } = "X"
    ∧ buildPrompt
      { customPrompt := "X", fromSha := "z", toSha := "w",
        commitSummaries := [], community := "", tone := "",
        hashtags := [], callToAction := "", extraInstructions := "" } =
      buildPrompt
      { customPrompt := "X", fromSha := "a", toSha := "b",
        commitSummaries := ["s"], community := "c", tone := "witty",
        hashtags := ["#h"], callToAction := "go", extraInstructions := "e" } :=
  buildPrompt_override_spec
    { customPrompt := "X", fromSha := "a", toSha := "b",
      commitSummaries := ["s"], community := "c", tone := "witty",
      hashtags := ["#h"], callToAction := "go", extraInstructions := "e" }
    { customPrompt := "X", fromSha := "z", toSha := "w",
      commitSummaries := [], community := "", tone := "",
      hashtags := [], callToAction := "", extraInstructions := "" }
    (by decide) rfl

/-- C6: without an override the composed prompt is the blank-line join of
the included fragments in the fixed order a-i (fixed instruction,
count-and-range, destination, optional tone, optional hashtag directive,
optional call-to-action, the literal header followed by the summaries
joined with the marker-line separator, optional extra instructions,
closing style directive); the order never changes with the presence of the
optional parts, and an absent tone contributes no tone fragment. -/
theorem buildPrompt_compose_spec (p : PromptParams) (h : p.customPrompt = "") :
    buildPrompt p = joinSep "\n\n" (buildPromptParts p)
    ∧ buildPromptParts p =
        ["You are a concise social media writer for X. Compose a single post (no thread) under 280 characters.",
         "Summarize " ++ toString p.commitSummaries.length ++ " commit(s) between " ++
           p.fromSha ++ " and " ++ p.toSha ++ " with a focus on what users will notice.",
         if p.community ≠ "" then
           "This message will share with the \"" ++ p.community ++ "\" community."
         else "This message will post to the main timeline."]
        ++ (if p.tone ≠ "" then ["Adopt a " ++ p.tone ++ " tone."] else [])
        ++ (if p.hashtags ≠ [] then
              ["Incorporate these hashtags: " ++ joinSep " " p.hashtags] else [])
        ++ (if p.callToAction ≠ "" then ["Finish with: " ++ p.callToAction] else [])
        ++ ["Commit context:", joinSep "\n\n---\n\n" p.commitSummaries]
        ++ (if p.extraInstructions ≠ "" then
              ["Additional instructions: " ++ p.extraInstructions] else [])
        ++ ["Stay actionable, friendly, and avoid overly technical jargon."]
    ∧ (p.tone = "" → buildPromptParts p =
        ["You are a concise social media writer for X. Compose a single post (no thread) under 280 characters.",
         "Summarize " ++ toString p.commitSummaries.length ++ " commit(s) between " ++
           p.fromSha ++ " and " ++ p.toSha ++ " with a focus on what users will notice.",
         if p.community ≠ "" then
           "This message will share with the \"" ++ p.community ++ "\" community."
         else "This message will post to the main timeline."]
        ++ (if p.hashtags ≠ [] then
              ["Incorporate these hashtags: " ++ joinSep " " p.hashtags] else [])
        ++ (if p.callToAction ≠ "" then ["Finish with: " ++ p.callToAction] else [])
        ++ ["Commit context:", joinSep "\n\n---\n\n" p.commitSummaries]
        ++ (if p.extraInstructions ≠ "" then
              ["Additional instructions: " ++ p.extraInstructions] else [])
        ++ ["Stay actionable, friendly, and avoid overly technical jargon."]) := by
  have h2 : buildPromptParts p =
      ["You are a concise social media writer for X. Compose a single post (no thread) under 280 characters.",
       "Summarize " ++ toString p.commitSummaries.length ++ " commit(s) between " ++
         p.fromSha ++ " and " ++ p.toSha ++ " with a focus on what users will notice.",
       if p.community ≠ "" then
         "This message will share with the \"" ++ p.community ++ "\" community."
       else "This message will post to the main timeline."]
      ++ (if p.tone ≠ "" then ["Adopt a " ++ p.tone ++ " tone."] else [])
      ++ (if p.hashtags ≠ [] then
            ["Incorporate these hashtags: " ++ joinSep " " p.hashtags] else [])
      ++ (if p.callToAction ≠ "" then ["Finish with: " ++ p.callToAction] else [])
      ++ ["Commit context:", joinSep "\n\n---\n\n" p.commitSummaries]
      ++ (if p.extraInstructions ≠ "" then
            ["Additional instructions: " ++ p.extraInstructions] else [])
      ++ ["Stay actionable, friendly, and avoid overly technical jargon."] := by
    simp only [buildPromptParts]
    split_ifs <;> simp
  refine ⟨by rw [buildPrompt, if_neg (by simp [h])], h2, ?_⟩
  intro ht
  rw [h2, if_neg (show ¬(p.tone ≠ "") by simp [ht])]
  simp

/-- Witness for C6 at a concrete parameter record with no override, no
tone, and one commit summary. -/
theorem buildPrompt_compose_spec_witness :
    buildPrompt
      { customPrompt := "", fromSha := "a1", toSha := "b2",
        commitSummaries := ["S1"], community := "", tone := "",
        hashtags := [], callToAction := "", extraInstructions := "" } =
      joinSep "\n\n" (buildPromptParts
      { customPrompt := "", fromSha := "a1", toSha := "b2",
        commitSummaries := ["S1"], community := "", tone := "",
        hashtags := [], callToAction := "", extraInstructions := "" })
    ∧ buildPromptParts
      { customPrompt := "", fromSha := "a1", toSha := "b2",
        commitSummaries := ["S1"], community := "", tone := "",
        hashtags := [], callToAction := "", extraInstructions := "" } =
      ["You are a concise social media writer for X. Compose a single post (no thread) under 280 characters.",
       "Summarize 1 commit(s) between a1 and b2 with a focus on what users will notice.",
       "This message will post to the main timeline.",
       "Commit context:", "S1",
       "Stay actionable, friendly, and avoid overly technical jargon."] := by
  have h := buildPrompt_compose_spec
    { customPrompt := "", fromSha := "a1", toSha := "b2",
      commitSummaries := ["S1"], community := "", tone := "",
      hashtags := [], callToAction := "", extraInstructions := "" } rfl
  exact ⟨h.1, (h.2.2 rfl).trans (by decide)⟩

/-- Separator class of the hashtag split (src/index.js line 226): any
whitespace character or a comma. -/
def isHashSepChar (c : Char) : Bool :=
  isJsWhitespaceChar c || c = ','

/-- One step of the separator split; the Bool component records whether
the character immediately to the right is a separator, so that a run of
adjacent separators counts as one split point. -/
def splitSepStep (c : Char) (acc : List (List Char) × Bool) :
    List (List Char) × Bool :=
  if isHashSepChar c then
    if acc.2 then acc else ([] :: acc.1, true)
  else
    match acc.1 with
    | [] => ([[c]], false)
    | t :: ts => ((c :: t) :: ts, false)

/-- Translation of JavaScript input.split on the regular expression of one
or more whitespace-or-comma characters: fields between separator runs,
with an empty leading or trailing field when the string starts or ends
with a separator. -/
def jsSplitSepRuns (s : String) : List String :=
  ((s.data.foldr splitSepStep ([[]], false)).1).map String.mk

/-- Tests whether a string starts with the hash character; translation of
value.startsWith applied to the one-character string hash
(src/index.js line 229). -/
def jsStartsWithHashChar (v : String) : Bool :=
  match v.data with
  | [] => false
  | c :: _ => c = '#'

/-- Translation of the hashtag normalization (src/index.js lines 225-229):
split on commas and whitespace, trim each token, drop empty tokens, and
give each remaining token a hash character unless it already starts with
one. -/
def normalizeHashtags (input : String) : List String :=
  (((jsSplitSepRuns input).map jsTrim).filter (fun v => v ≠ "")).map
    (fun v => if jsStartsWithHashChar v then v else "#" ++ v)

theorem startsWithHash_head {v : String} (h : jsStartsWithHashChar v = true) :
    v.data.head? = some '#' := by
  unfold jsStartsWithHashChar at h
  cases hv : v.data with
  | nil => rw [hv] at h; simp at h
  | cons c cs =>
    rw [hv] at h
    simp only [decide_eq_true_eq] at h
    rw [h]
    rfl

/-- C7: the normalized hashtag list comes from splitting on commas and
whitespace and dropping empty tokens; every resulting token starts with
the hash character, the hash is prepended exactly once to a token lacking
it and never to a token already carrying it; the input
alpha-comma-hash-beta-space-gamma yields exactly the three tokens. -/
theorem normalizeHashtags_spec :
    normalizeHashtags "alpha, #beta gamma" = ["#alpha", "#beta", "#gamma"]
    ∧ (∀ input : String, ∀ t ∈ normalizeHashtags input,
        t.data.head? = some '#')
    ∧ (∀ v : String, jsStartsWithHashChar v = false →
        (if jsStartsWithHashChar v then v else "#" ++ v) = "#" ++ v)
    ∧ (∀ v : String, jsStartsWithHashChar v = true →
        (if jsStartsWithHashChar v then v else "#" ++ v) = v) := by
  refine ⟨by decide, ?_, ?_, ?_⟩
  · intro input t ht
    rw [normalizeHashtags, List.mem_map] at ht
    obtain ⟨v, _, heq⟩ := ht
    subst heq
    by_cases hv : jsStartsWithHashChar v = true
    · rw [if_pos hv]
      exact startsWithHash_head hv
    · rw [if_neg hv, strData_append]
      rfl
  · intro v hv
    rw [if_neg (by simp [hv])]
  · intro v hv
    rw [if_pos hv]

/-- Witness for C7: the first normalized token of the input alpha starts
with the hash character, and a token lacking the hash gets exactly one. -/
theorem normalizeHashtags_spec_witness :
    (String.data "#alpha").head? = some '#'
    ∧ (if jsStartsWithHashChar "beta" then "beta" else "#" ++ "beta") =
        "#" ++ "beta" :=
  ⟨normalizeHashtags_spec.2.1 "alpha" "#alpha" (by decide),
   normalizeHashtags_spec.2.2.1 "beta" (by decide)⟩

def digitsToNat (l : List Char) : Nat :=
  l.foldl (fun a c => a * 10 + (c.toNat - '0'.toNat)) 0

def jsParseIntSigned (sign : Int) (l : List Char) : Option Int :=
  let digits := l.takeWhile Char.isDigit
  if digits = [] then none else some (sign * (digitsToNat digits : Int))

/-- Translation of JavaScript Number.parseInt with radix 10: skip leading
whitespace, read an optional sign and then the longest leading digit run;
no digit at all gives NaN, modelled as none. -/
def jsParseInt (s : String) : Option Int :=
  match s.data.dropWhile isJsWhitespaceChar with
  | '+' :: t => jsParseIntSigned 1 t
  | '-' :: t => jsParseIntSigned (-1) t
  | l => jsParseIntSigned 1 l

def jsParseExpDigits (sign : Int) (l : List Char) : Int :=
  let digits := l.takeWhile Char.isDigit
  if digits = [] then 0 else sign * (digitsToNat digits : Int)

def jsParseExpSigned (l : List Char) : Int :=
  match l with
  | '+' :: t => jsParseExpDigits 1 t
  | '-' :: t => jsParseExpDigits (-1) t
  | l => jsParseExpDigits 1 l

/-- Exponent part of a decimal literal: an e or E followed by an optional
sign and at least one digit; anything else contributes exponent 0, since
the host parser ignores a trailing incomplete exponent. -/
def jsParseExp (l : List Char) : Int :=
  match l with
  | 'e' :: t => jsParseExpSigned t
  | 'E' :: t => jsParseExpSigned t
  | _ => 0

/-- Decimal-literal body after the optional sign. The literal Infinity
parses to an infinite value in the host language; an infinite value fails
the closed-range temperature check exactly as a failed parse does, so it
is collapsed to none in this rational model. -/
def jsParseFloatSigned (sign : ℚ) (l : List Char) : Option ℚ :=
  if l.take 8 = ['I', 'n', 'f', 'i', 'n', 'i', 't', 'y'] then none
  else
    let intDigits := l.takeWhile Char.isDigit
    let rest := l.dropWhile Char.isDigit
    let fracDigits :=
      match rest with
      | '.' :: r => r.takeWhile Char.isDigit
      | _ => []
    let afterFrac :=
      match rest with
      | '.' :: r => r.dropWhile Char.isDigit
      | _ => rest
    if intDigits = [] ∧ fracDigits = [] then none
    else
      let mantissa : ℚ := (digitsToNat intDigits : ℚ) +
        (digitsToNat fracDigits : ℚ) / (10 : ℚ) ^ fracDigits.length
      let expPart := jsParseExp afterFrac
      let scale : ℚ :=
        if 0 ≤ expPart then (10 : ℚ) ^ expPart.toNat
        else 1 / (10 : ℚ) ^ (-expPart).toNat
      some (sign * mantissa * scale)

/-- Translation of JavaScript Number.parseFloat over rationals: skip
leading whitespace, read an optional sign and the longest valid
decimal-literal leading portion of the rest; no usable digits give NaN,
modelled as none. -/
def jsParseFloat (s : String) : Option ℚ :=
  match s.data.dropWhile isJsWhitespaceChar with
  | '+' :: t => jsParseFloatSigned 1 t
  | '-' :: t => jsParseFloatSigned (-1) t
  | l => jsParseFloatSigned 1 l

/-- Translation of the max_diff_chars validation (src/index.js 241-244). -/
def validateMaxDiffChars (input : String) : Except String Int :=
  match jsParseInt input with
  | none => .error ("\"max_diff_chars\" must be a non-negative integer. Received \"" ++ input ++ "\".")
  | some n =>
    if n < 0 then
      .error ("\"max_diff_chars\" must be a non-negative integer. Received \"" ++ input ++ "\".")
    else .ok n

/-- Translation of the max_output_tokens validation (src/index.js 246-249). -/
def validateMaxOutputTokens (input : String) : Except String Int :=
  match jsParseInt input with
  | none => .error ("\"max_output_tokens\" must be a positive integer. Received \"" ++ input ++ "\".")
  | some n =>
    if n ≤ 0 then
      .error ("\"max_output_tokens\" must be a positive integer. Received \"" ++ input ++ "\".")
    else .ok n

/-- Translation of the temperature validation (src/index.js 251-254). -/
def validateTemperature (input : String) : Except String ℚ :=
  match jsParseFloat input with
  | none => .error ("\"temperature\" must be a number between 0 and 2. Received \"" ++ input ++ "\".")
  | some q =>
    if q < 0 ∨ q > 2 then
      .error ("\"temperature\" must be a number between 0 and 2. Received \"" ++ input ++ "\".")
    else .ok q

/-- Version-control collaborator oracle: raw results of the git commands
invoked by the source (resolve is git rev-parse, revListRaw the raw
rev-list output, titleRaw and bodyRaw the raw show outputs, diffRaw the
diff text for a sha and path filter). -/
structure GitOracle where
  resolve : String → Except String String
  revListRaw : String → String → Except String String
  titleRaw : String → String
  bodyRaw : String → String
  diffRaw : String → List String → String

/-- Translation of resolveCommit (src/index.js 22-28): trim the rev-parse
output, wrap failure in a message naming the reference. -/
def resolveCommit (git : GitOracle) (ref : String) : Except String String :=
  match git.resolve ref with
  | .error e => .error ("Failed to resolve commit reference \"" ++ ref ++ "\": " ++ e)
  | .ok out => .ok (jsTrim out)

/-- Translation of listCommitsInRange (src/index.js 30-40): parse the raw
rev-list output, wrap failure in a message naming both ids. -/
def listCommitsInRange (git : GitOracle) (fromSha toSha : String) :
    Except String (List String) :=
  match git.revListRaw fromSha toSha with
  | .error e => .error ("Failed to list commits between " ++ fromSha ++ " and " ++ toSha ++ ": " ++ e)
  | .ok raw => .ok (parseRevList raw)

/-- Completion-endpoint response oracle: transport status, raw body text,
and the content chain choices-first-message-content when present. -/
structure ModelResponse where
  ok : Bool
  status : Nat
  bodyText : String
  content : Option String

/-- The completion request assembled by run (src/index.js 292-299). -/
structure ModelRequest where
  model : String
  maxTokens : Int
  temperature : ℚ
  systemPrompt : String
  prompt : String
deriving DecidableEq

/-- Translation of callModel response handling (src/index.js 160-173): a
non-ok status propagates status and body verbatim; a missing or empty
content is a content error; otherwise the trimmed content is returned. -/
def callModel (mres : ModelResponse) : Except String String :=
  if mres.ok = false then
    .error ("Model request failed with status " ++ toString mres.status ++ ": " ++ mres.bodyText)
  else
    match mres.content with
    | none => .error "Model response did not include any content."
    | some c =>
      if c = "" then .error "Model response did not include any content."
      else .ok (jsTrim c)

/-- Publish-endpoint response oracle; errorsJoined is the aggregated
platform error message derived from the response payload. -/
structure PublishResponse where
  ok : Bool
  status : Nat
  errorsJoined : String
  dataId : Option String

/-- The publish request sent by postToX (src/index.js 176-188): community
none means the main-timeline endpoint, some c the community endpoint. -/
structure XRequest where
  text : String
  community : Option String
deriving DecidableEq

/-- Endpoint selection of postToX (src/index.js 177-179): a truthy
communityId selects the community endpoint, otherwise the main timeline. -/
def postToXRequest (text : String) (communityId : Option String) : XRequest :=
  { text := text,
    community :=
      match communityId with
      | none => none
      | some c => if c = "" then none else some c }

/-- Response handling of postToX (src/index.js 190-200). -/
def postToXResult (pres : PublishResponse) : Except String (Option String) :=
  if pres.ok = false then
    .error ("X API request failed (" ++ toString pres.status ++ "): " ++ pres.errorsJoined)
  else .ok pres.dataId

/-- Configuration surface of run (src/index.js 205-219): the action input
strings (empty string when an input is not provided) and the two
environment credentials (none when the variable is absent). -/
structure RunConfig where
  fromInput : String
  toInput : String
  includeStartCommit : Bool
  maxDiffChars : String
  maxOutputTokens : String
  temperature : String
  model : String
  systemPrompt : String
  extraInstructions : String
  prompt : String
  tone : String
  callToAction : String
  community : String
  hashtags : String
  paths : List String
  githubToken : Option String
  xBearerToken : Option String

/-- Observable outcome of one pipeline run: the fatal error message if
any, the no-op notice if any, the outputs set, and the completion and
publish requests issued (none when the collaborator was never invoked). -/
structure RunResult where
  error : Option String
  notice : Option String
  outputs : List (String × String)
  modelRequest : Option ModelRequest
  publishRequest : Option XRequest
deriving DecidableEq

/-- A run aborted before any network request (core.setFailed). -/
def failResult (msg : String) : RunResult :=
  { error := some msg, notice := none, outputs := [],
    modelRequest := none, publishRequest := none }

/-- Translation of JavaScript input-or-default on strings: the empty
string is falsy, so it selects the default. -/
def defaultedInput (v dflt : String) : String :=
  if v = "" then dflt else v

/-- The default persona string (src/index.js 5-6). -/
def DEFAULT_SYSTEM_PROMPT : String :=
  "You are a social media copywriter who crafts concise, engaging posts for X (formerly Twitter). Stay under 280 characters in a single post and highlight what matters to users."

/-- Translation of run (src/index.js 203-326) over the collaborator
oracles: trims and defaults the inputs, checks the credentials, validates
the three numeric inputs, resolves the two references, collects the
commit range, short-circuits on an empty range, otherwise builds the
summaries and the prompt, performs the completion call and then the
publish call, and reports the outputs. -/
def run (cfg : RunConfig) (git : GitOracle) (mres : ModelResponse)
    (pres : PublishResponse) : RunResult :=
  let startRef := jsTrim cfg.fromInput
  let endRefInput := jsTrim cfg.toInput
  let communityInput := jsTrim cfg.community
  let diffPaths := (cfg.paths.map jsTrim).filter (fun v => v ≠ "")
  let hashtags := normalizeHashtags cfg.hashtags
  if cfg.githubToken.getD "" = "" then
    failResult "GITHUB_TOKEN environment variable is required to call GitHub Models API."
  else if cfg.xBearerToken.getD "" = "" then
    failResult "X_BEARER_TOKEN environment variable is required to post to X."
  else
    match validateMaxDiffChars (defaultedInput cfg.maxDiffChars "2000") with
    | .error e => failResult e
    | .ok maxDiffChars =>
      match validateMaxOutputTokens (defaultedInput cfg.maxOutputTokens "400") with
      | .error e => failResult e
      | .ok maxOutputTokens =>
        match validateTemperature (defaultedInput cfg.temperature "0.2") with
        | .error e => failResult e
        | .ok temperature =>
          match resolveCommit git startRef with
          | .error e => failResult e
          | .ok fromSha =>
            match resolveCommit git (defaultedInput endRefInput "HEAD") with
            | .error e => failResult e
            | .ok toSha =>
              match listCommitsInRange git fromSha toSha with
              | .error e => failResult e
              | .ok commitsInRange =>
                let commitOrder :=
                  commitOrderOf fromSha commitsInRange cfg.includeStartCommit
                if commitOrder = [] then
                  { error := none,
                    notice := some ("No commits found between " ++ fromSha ++ " and " ++ toSha ++ ". Skipping X post."),
                    outputs := [("generated-post", ""), ("post-id", ""),
                      ("post-url", ""), ("community-id", communityInput)],
                    modelRequest := none, publishRequest := none }
                else
                  let commitSummaries := commitOrder.map (fun sha =>
                    buildCommitSummary sha (git.titleRaw sha) (git.bodyRaw sha)
                      (git.diffRaw sha diffPaths) (some maxDiffChars))
                  let prompt := buildPrompt
                    { customPrompt := cfg.prompt, fromSha := fromSha,
                      toSha := toSha, commitSummaries := commitSummaries,
                      community := communityInput, tone := cfg.tone,
                      hashtags := hashtags, callToAction := cfg.callToAction,
                      extraInstructions := cfg.extraInstructions }
                  let mreq : ModelRequest :=
                    { model := defaultedInput cfg.model "openai/gpt-4o-mini",
                      maxTokens := maxOutputTokens, temperature := temperature,
                      systemPrompt := defaultedInput cfg.systemPrompt DEFAULT_SYSTEM_PROMPT,
                      prompt := prompt }
                  match callModel mres with
                  | .error e =>
                    { error := some e, notice := none, outputs := [],
                      modelRequest := some mreq, publishRequest := none }
                  | .ok generatedPost =>
                    let xreq := postToXRequest generatedPost
                      (if communityInput = "" then none else some communityInput)
                    match postToXResult pres with
                    | .error e =>
                      { error := some e, notice := none, outputs := [],
                        modelRequest := some mreq, publishRequest := some xreq }
                    | .ok dataId =>
                      let postId := dataId.getD ""
                      let postUrl :=
                        if postId = "" then ""
                        else "https://x.com/i/web/status/" ++ postId
                      { error := none, notice := none,
                        outputs := [("generated-post", generatedPost),
                          ("post-id", postId), ("post-url", postUrl),
                          ("community-id", communityInput)],
                        modelRequest := some mreq, publishRequest := some xreq }

/-- Sample git oracle whose range query returns no commits. -/
def sampleGitEmptyRange : GitOracle :=
  { resolve := fun r => .ok r, revListRaw := fun _ _ => .ok "",
    titleRaw := fun _ => "t", bodyRaw := fun _ => "b",
    diffRaw := fun _ _ => "d" }

/-- Sample successful completion response. -/
def sampleModelOk : ModelResponse :=
  { ok := true, status := 200, bodyText := "", content := some " Post text " }

/-- Sample successful publish response. -/
def samplePublishOk : PublishResponse :=
  { ok := true, status := 201, errorsJoined := "", dataId := some "123" }

/-- Sample configuration with a non-empty community and
include_start_commit unset. -/
def communityRunCfg : RunConfig :=
  { fromInput := "v1", toInput := "v2", includeStartCommit := false,
    maxDiffChars := "", maxOutputTokens := "", temperature := "",
    model := "", systemPrompt := "", extraInstructions := "", prompt := "",
    tone := "", callToAction := "", community := "dev", hashtags := "",
    paths := [], githubToken := some "g", xBearerToken := some "x" }

/-- Counterexample to C4 as stated: on an empty collected range the run
terminates without error and without invoking the collaborators, but the
outputs are not all empty: the community-id output echoes the configured
community (dev), so the pipeline does not set empty outputs. -/
theorem run_emptyRange_counterexample :
    (run communityRunCfg sampleGitEmptyRange sampleModelOk samplePublishOk).error = none
    ∧ (run communityRunCfg sampleGitEmptyRange sampleModelOk samplePublishOk).modelRequest = none
    ∧ (run communityRunCfg sampleGitEmptyRange sampleModelOk samplePublishOk).publishRequest = none
    ∧ (run communityRunCfg sampleGitEmptyRange sampleModelOk samplePublishOk).outputs.map
        Prod.snd = ["", "", "", "dev"]
    ∧ ("dev" : String) ≠ "" := by
  refine ⟨?_, ?_, ?_, ?_, by decide⟩
  · with_unfolding_all rfl
  · with_unfolding_all rfl
  · with_unfolding_all rfl
  · with_unfolding_all rfl

/-- C4 (amended): whenever the collected commit list (after considering
includeFrom) is empty, the pipeline terminates without error, emits the
no-op notice, sets the generated-post, post-id and post-url outputs to the
empty string while the community-id output echoes the trimmed community
input, and never invokes the completion or publish collaborators. -/
theorem run_emptyRange_spec (cfg : RunConfig) (git : GitOracle)
    (mres : ModelResponse) (pres : PublishResponse)
    (md mt : Int) (tq : ℚ) (fromSha toSha : String)
    (hgh : cfg.githubToken.getD "" ≠ "")
    (hxt : cfg.xBearerToken.getD "" ≠ "")
    (hmd : validateMaxDiffChars (defaultedInput cfg.maxDiffChars "2000") = Except.ok md)
    (hmt : validateMaxOutputTokens (defaultedInput cfg.maxOutputTokens "400") = Except.ok mt)
    (htemp : validateTemperature (defaultedInput cfg.temperature "0.2") = Except.ok tq)
    (hfrom : resolveCommit git (jsTrim cfg.fromInput) = Except.ok fromSha)
    (hto : resolveCommit git (defaultedInput (jsTrim cfg.toInput) "HEAD") = Except.ok toSha)
    (hrange : listCommitsInRange git fromSha toSha = Except.ok [])
    (hinc : cfg.includeStartCommit = false) :
    run cfg git mres pres =
      { error := none,
        notice := some ("No commits found between " ++ fromSha ++ " and " ++
          toSha ++ ". Skipping X post."),
        outputs := [("generated-post", ""), ("post-id", ""), ("post-url", ""),
          ("community-id", jsTrim cfg.community)],
        modelRequest := none, publishRequest := none } := by
  simp only [run, if_neg hgh, if_neg hxt, hmd, hmt, htemp, hfrom, hto, hrange,
    hinc, commitOrderOf, Bool.false_eq_true, if_false, if_true]

/-- Witness for the amended C4 at concrete inputs: the same-range run with
community dev short-circuits with the echoed community output. -/
theorem run_emptyRange_spec_witness :
    run communityRunCfg sampleGitEmptyRange sampleModelOk samplePublishOk =
      { error := none,
        notice := some "No commits found between v1 and v2. Skipping X post.",
        outputs := [("generated-post", ""), ("post-id", ""), ("post-url", ""),
          ("community-id", "dev")],
        modelRequest := none, publishRequest := none } := by
  have h := run_emptyRange_spec communityRunCfg sampleGitEmptyRange sampleModelOk
    samplePublishOk 2000 400 (1/5) "v1" "v2"
    (by decide) (by decide)
    (by with_unfolding_all rfl) (by with_unfolding_all rfl)
    (by with_unfolding_all rfl) (by with_unfolding_all rfl)
    (by with_unfolding_all rfl) (by with_unfolding_all rfl) rfl
  exact h.trans (by with_unfolding_all rfl)

/-- C8: temperature validation succeeds exactly when the configured string
parses as a rational in the closed interval 0 to 2; on failure the run
aborts with the error message naming temperature and quoting the literal
offending input, and neither the completion nor the publish request is
ever issued. The credential and integer-validation hypotheses place the
run at the temperature check; a non-empty temperature input is required
since an empty input is replaced by the default before validation. -/
theorem run_temperature_spec (cfg : RunConfig) (git : GitOracle)
    (mres : ModelResponse) (pres : PublishResponse) (md mt : Int)
    (hne : cfg.temperature ≠ "")
    (hgh : cfg.githubToken.getD "" ≠ "")
    (hxt : cfg.xBearerToken.getD "" ≠ "")
    (hmd : validateMaxDiffChars (defaultedInput cfg.maxDiffChars "2000") = Except.ok md)
    (hmt : validateMaxOutputTokens (defaultedInput cfg.maxOutputTokens "400") = Except.ok mt) :
    ((∃ q, validateTemperature cfg.temperature = Except.ok q) ↔
      (∃ q : ℚ, jsParseFloat cfg.temperature = some q ∧ 0 ≤ q ∧ q ≤ 2))
    ∧ (∀ msg, validateTemperature cfg.temperature = Except.error msg →
        msg = "\"temperature\" must be a number between 0 and 2. Received \"" ++
          cfg.temperature ++ "\"."
        ∧ (run cfg git mres pres).error = some msg
        ∧ (run cfg git mres pres).modelRequest = none
        ∧ (run cfg git mres pres).publishRequest = none) := by
  have hdeft : defaultedInput cfg.temperature "0.2" = cfg.temperature := by
    simp only [defaultedInput, if_neg hne]
  constructor
  · constructor
    · rintro ⟨q, hq⟩
      simp only [validateTemperature] at hq
      cases hpf : jsParseFloat cfg.temperature with
      | none => rw [hpf] at hq; simp at hq
      | some q2 =>
        simp only [hpf] at hq
        split at hq
        · simp at hq
        · rename_i hcond
          push_neg at hcond
          exact ⟨q2, rfl, hcond.1, hcond.2⟩
    · rintro ⟨q, hpf, h0, h2⟩
      refine ⟨q, ?_⟩
      simp only [validateTemperature, hpf]
      rw [if_neg (by push_neg; exact ⟨h0, h2⟩)]
  · intro msg hmsg
    have hmsgeq : msg = "\"temperature\" must be a number between 0 and 2. Received \"" ++
        cfg.temperature ++ "\"." := by
      simp only [validateTemperature] at hmsg
      cases hpf : jsParseFloat cfg.temperature with
      | none =>
        simp only [hpf, Except.error.injEq] at hmsg
        exact hmsg.symm
      | some q2 =>
        simp only [hpf] at hmsg
        split at hmsg
        · simp only [Except.error.injEq] at hmsg
          exact hmsg.symm
        · simp at hmsg
    have hrun : run cfg git mres pres = failResult msg := by
      simp only [run, if_neg hgh, if_neg hxt, hmd, hmt, hdeft, hmsg]
    exact ⟨hmsgeq, by rw [hrun]; rfl, by rw [hrun]; rfl, by rw [hrun]; rfl⟩

/-- Sample configuration with the out-of-range temperature 3. -/
def temperature3Cfg : RunConfig :=
  { fromInput := "v1", toInput := "v2", includeStartCommit := false,
    maxDiffChars := "", maxOutputTokens := "", temperature := "3",
    model := "", systemPrompt := "", extraInstructions := "", prompt := "",
    tone := "", callToAction := "", community := "", hashtags := "",
    paths := [], githubToken := some "g", xBearerToken := some "x" }

/-- Witness for C8: temperature input 3 parses to the rational 3, fails
the range check, and the run fails with the message naming temperature and
quoting the value 3 while issuing no request. -/
theorem run_temperature_spec_witness :
    (run temperature3Cfg sampleGitEmptyRange sampleModelOk samplePublishOk).error =
      some "\"temperature\" must be a number between 0 and 2. Received \"3\"."
    ∧ (run temperature3Cfg sampleGitEmptyRange sampleModelOk samplePublishOk).modelRequest = none
    ∧ (run temperature3Cfg sampleGitEmptyRange sampleModelOk samplePublishOk).publishRequest = none := by
  have h := (run_temperature_spec temperature3Cfg sampleGitEmptyRange sampleModelOk
    samplePublishOk 2000 400 (by decide) (by decide) (by decide)
    (by with_unfolding_all rfl) (by with_unfolding_all rfl)).2
    "\"temperature\" must be a number between 0 and 2. Received \"3\"."
    (by with_unfolding_all rfl)
  exact ⟨h.2.1, h.2.2.1, h.2.2.2⟩

/-- C9: when the completion response is successful and carries non-empty
content, the generated post is exactly that content with surrounding
whitespace trimmed, and exactly this string is the text of the publish
request, with no code-level truncation at any point and no condition on
its length. -/
theorem run_publish_unmodified_spec (cfg : RunConfig) (git : GitOracle)
    (mres : ModelResponse) (pres : PublishResponse)
    (md mt : Int) (tq : ℚ) (fromSha toSha c : String) (commits : List String)
    (hgh : cfg.githubToken.getD "" ≠ "")
    (hxt : cfg.xBearerToken.getD "" ≠ "")
    (hmd : validateMaxDiffChars (defaultedInput cfg.maxDiffChars "2000") = Except.ok md)
    (hmt : validateMaxOutputTokens (defaultedInput cfg.maxOutputTokens "400") = Except.ok mt)
    (htemp : validateTemperature (defaultedInput cfg.temperature "0.2") = Except.ok tq)
    (hfrom : resolveCommit git (jsTrim cfg.fromInput) = Except.ok fromSha)
    (hto : resolveCommit git (defaultedInput (jsTrim cfg.toInput) "HEAD") = Except.ok toSha)
    (hrange : listCommitsInRange git fromSha toSha = Except.ok commits)
    (hne : commitOrderOf fromSha commits cfg.includeStartCommit ≠ [])
    (hok : mres.ok = true) (hc : mres.content = some c) (hcne : c ≠ "") :
    (run cfg git mres pres).publishRequest =
      some (postToXRequest (jsTrim c)
        (if jsTrim cfg.community = "" then none else some (jsTrim cfg.community)))
    ∧ (postToXRequest (jsTrim c)
        (if jsTrim cfg.community = "" then none else some (jsTrim cfg.community))).text =
      jsTrim c := by
  have hcm : callModel mres = Except.ok (jsTrim c) := by
    simp [callModel, hok, hc, hcne]
  refine ⟨?_, rfl⟩
  cases hpres : postToXResult pres with
  | error e =>
    simp only [run, if_neg hgh, if_neg hxt, hmd, hmt, htemp, hfrom, hto, hrange,
      if_neg hne, hcm, hpres]
  | ok dataId =>
    simp only [run, if_neg hgh, if_neg hxt, hmd, hmt, htemp, hfrom, hto, hrange,
      if_neg hne, hcm, hpres]

/-- Sample configuration that includes the start commit, so the collected
range is never empty. -/
def publishRunCfg : RunConfig :=
  { fromInput := "v1", toInput := "v2", includeStartCommit := true,
    maxDiffChars := "", maxOutputTokens := "", temperature := "",
    model := "", systemPrompt := "", extraInstructions := "", prompt := "",
    tone := "", callToAction := "", community := "", hashtags := "",
    paths := [], githubToken := some "g", xBearerToken := some "x" }

/-- Witness for C9: the content with surrounding blanks is published
exactly as its trimmed form to the main timeline. -/
theorem run_publish_unmodified_spec_witness :
    (run publishRunCfg sampleGitEmptyRange sampleModelOk samplePublishOk).publishRequest =
      some { text := "Post text", community := none } := by
  have h := (run_publish_unmodified_spec publishRunCfg sampleGitEmptyRange
    sampleModelOk samplePublishOk 2000 400 (1/5) "v1" "v2" " Post text " []
    (by decide) (by decide)
    (by with_unfolding_all rfl) (by with_unfolding_all rfl)
    (by with_unfolding_all rfl) (by with_unfolding_all rfl)
    (by with_unfolding_all rfl) (by with_unfolding_all rfl)
    (by decide) rfl rfl (by decide)).1
  exact h.trans (by with_unfolding_all rfl)

theorem run_publish_community_none (cfg : RunConfig) (git : GitOracle)
    (mres : ModelResponse) (pres : PublishResponse)
    (hcomm : jsTrim cfg.community = "") :
    ∀ req, (run cfg git mres pres).publishRequest = some req →
      req.community = none := by
  intro req hreq
  simp only [run, hcomm] at hreq
  repeat' split at hreq
  all_goals (try simp_all [failResult, postToXRequest])
  all_goals (rw [← hreq])

/-- C10: a community input that trims to nothing behaves exactly like no
community at all: the whole run result coincides with the empty-community
run, any publish request that is issued carries no community identifier
(main-timeline endpoint), and with an empty community the composed prompt
destination fragment is the main-timeline phrasing. -/
theorem run_community_spec (cfg : RunConfig) (git : GitOracle)
    (mres : ModelResponse) (pres : PublishResponse) (c : String)
    (h : jsTrim c = "") :
    run { cfg with community := c } git mres pres =
      run { cfg with community := "" } git mres pres
    ∧ (∀ req, (run { cfg with community := c } git mres pres).publishRequest =
        some req → req.community = none)
    ∧ (∀ p : PromptParams, p.community = "" →
        (buildPromptParts p).get? 2 =
          some "This message will post to the main timeline.") := by
  have hc2 : jsTrim ({ cfg with community := c } : RunConfig).community = "" := h
  refine ⟨?_, run_publish_community_none _ git mres pres hc2, ?_⟩
  · have h0 : jsTrim ("" : String) = "" := rfl
    simp only [run, h, h0]
  · intro p hp
    simp only [buildPromptParts]
    rw [if_neg (show ¬(p.community ≠ "") by simp [hp])]
    split_ifs <;> rfl

/-- Witness for C10: a whitespace-only community runs identically to the
empty community and the publish request goes to the main timeline. -/
theorem run_community_spec_witness :
    run { publishRunCfg with community := "  " } sampleGitEmptyRange
        sampleModelOk samplePublishOk =
      run { publishRunCfg with community := "" } sampleGitEmptyRange
        sampleModelOk samplePublishOk := by
  exact (run_community_spec publishRunCfg sampleGitEmptyRange sampleModelOk
    samplePublishOk "  " (by decide)).1
